import Mathlib

/-!
Verification development for the subscription synchronization layer of the
graphql-io client library.  The definitions below are a shallow embedding of
the JavaScript sources:

  * src/src/graphql-io-3-subscription.js  (the Subscription class)
  * src/src/graphql-io-2-query.js         (Query.__processResults)
  * src/unnamed/part_001, first file      (the Client class: registry,
    notification dispatch, open/close handlers, option defaults)

The promise chain of a Subscription (field next) is modelled explicitly: a
queue of not-yet-executed operations plus a flag recording whether the chain
is currently a rejected promise.  Issuing an operation appends to the queue
(mirroring next = next.then(callback)); settling executes queued callbacks in
order, and once a callback throws, the callbacks of all later links never run
and their promises reject (standard promise semantics of then without a
rejection handler).  The external execution engine is an oracle giving, for
the n-th network round trip, whether it succeeds and which subscription token
(the field data._Subscription.subscribe) a successful refetch carries.
-/

namespace GraphqlIoClient

/-- Lifecycle state of a Subscription (graphql-io-3-subscription.js line 43,
field state; values subscribed, paused, unsubscribed). -/
inductive SubState
  | subscribed
  | paused
  | unsubscribed
deriving DecidableEq, Repr

/-- The process-wide subscription registry (field subscriptions of the Client,
src/unnamed/part_001 line 72: a plain object mapping a server subscription id
to an object mapping instance ids to instances), modelled as an association
list from sid to the registered iids in insertion order. -/
abbrev Registry := List (String × List Nat)

/-- Lookup of subscriptions[sid] (undefined becomes none). -/
def regLookup (reg : Registry) (sid : String) : Option (List Nat) :=
  match reg with
  | [] => none
  | (s, l) :: rest => if s = sid then some l else regLookup rest sid

/-- Truth of subscriptions[sid] and subscriptions[sid][iid] both being defined
(the registration test of graphql-io-3-subscription.js lines 81-82). -/
def regHasInst (reg : Registry) (sid : String) (iid : Nat) : Bool :=
  match regLookup reg sid with
  | some l => l.contains iid
  | none => false

/-- Registration during refetch (graphql-io-3-subscription.js lines 104-106):
create the entry for sid if absent, then store the instance under its iid
(object key assignment, hence idempotent for an already-present iid). -/
def regRegister (reg : Registry) (sid : String) (iid : Nat) : Registry :=
  match reg with
  | [] => [(sid, [iid])]
  | (s, l) :: rest =>
    if s = sid then (s, if l.contains iid then l else l ++ [iid]) :: rest
    else (s, l) :: regRegister rest sid iid

/-- Removal during unsubscribe (graphql-io-3-subscription.js lines 161-163),
for a sid whose entry exists: delete the iid key, then delete the whole entry
if it became empty. -/
def regRemove (reg : Registry) (sid : String) (iid : Nat) : Registry :=
  match reg with
  | [] => []
  | (s, l) :: rest =>
    if s = sid then
      let l' := l.erase iid
      if l' = [] then rest else (s, l') :: rest
    else (s, l) :: regRemove rest sid iid

/-- Internal state of one Subscription instance (constructor, lines 41-47):
lifecycle state, the process-unique instance id iid, the server-assigned
subscription id sid (empty until assigned) and the refetching guard. -/
structure SubInst where
  st : SubState
  iid : Nat
  sid : String
  refetching : Bool
deriving DecidableEq, Repr

/-- An operation of the Subscription API as it appears on the promise chain. -/
inductive QOp
  | pause
  | resume
  | unsubscribe
  | refetch (force : Bool)
deriving DecidableEq, Repr

/-- How the promise of one chain link settles. -/
inductive Outcome
  /-- the callback ran to successful completion -/
  | fulfilled
  /-- the callback ran and threw, or its round trip failed: the link rejects -/
  | rejected
  /-- a non-forced refetch hit the silent-drop branch (lines 79-86): the link
  fulfills having done nothing -/
  | dropped
  /-- the callback never ran because an earlier link already rejected; the
  rejection propagates to this link -/
  | skipped
deriving DecidableEq, Repr

/-- Oracle for the external execution engine and transport: for the n-th
round trip, whether it settles successfully, and (for a successful refetch
query) the subscription token found at data._Subscription.subscribe, if any
(lines 96-102). -/
structure Engine where
  ok : Nat → Bool
  tok : Nat → Option String

/-- Execution of one queued operation callback, reached with the chain in a
fulfilled state.  Arguments: the engine oracle, the operation, the instance,
the registry and the number of round trips performed so far; result: updated
instance, registry, trip count, and how this link settles.

pause (lines 126-137): throws unless state is subscribed, otherwise performs
the directive round trip and on success sets state to paused.
resume (lines 140-151): same with paused and subscribed exchanged.
unsubscribe (lines 154-168): throws if already unsubscribed; otherwise the
directive round trip, then deletion of subscriptions[sid][iid] (a TypeError,
hence a rejection, if subscriptions[sid] is undefined), pruning of an emptied
entry, and the transition to unsubscribed.
refetch (lines 62-123): silently dropped when not forced, not subscribed and
not registered; otherwise throws unless subscribed; otherwise the query round
trip runs, an engine failure is folded into an error result (so the link still
fulfills), a token in a successful result is stored as the new sid and the
instance registered under it, and the finally clause clears the refetching
guard. -/
def runOp (eng : Engine) (o : QOp) (s : SubInst) (reg : Registry) (trips : Nat) :
    SubInst × Registry × Nat × Outcome :=
  match o with
  | .pause =>
    if s.st ≠ .subscribed then (s, reg, trips, .rejected)
    else if eng.ok trips then ({ s with st := .paused }, reg, trips + 1, .fulfilled)
    else (s, reg, trips + 1, .rejected)
  | .resume =>
    if s.st ≠ .paused then (s, reg, trips, .rejected)
    else if eng.ok trips then ({ s with st := .subscribed }, reg, trips + 1, .fulfilled)
    else (s, reg, trips + 1, .rejected)
  | .unsubscribe =>
    if s.st = .unsubscribed then (s, reg, trips, .rejected)
    else if eng.ok trips then
      match regLookup reg s.sid with
      | none => (s, reg, trips + 1, .rejected)
      | some _ =>
        ({ s with st := .unsubscribed }, regRemove reg s.sid s.iid, trips + 1, .fulfilled)
    else (s, reg, trips + 1, .rejected)
  | .refetch force =>
    if force = false ∧ s.st ≠ .subscribed ∧ regHasInst reg s.sid s.iid = false then
      (s, reg, trips, .dropped)
    else if s.st ≠ .subscribed then (s, reg, trips, .rejected)
    else
      let s1 := { s with refetching := false }
      if eng.ok trips then
        match eng.tok trips with
        | some t => ({ s1 with sid := t }, regRegister reg t s.iid, trips + 1, .fulfilled)
        | none => (s1, reg, trips + 1, .fulfilled)
      else (s1, reg, trips + 1, .fulfilled)

/-- One Subscription together with its promise chain: the instance state, the
operations whose callbacks have not yet run, and whether the chain is
currently a rejected promise. -/
structure Machine where
  inst : SubInst
  queue : List QOp
  failed : Bool
deriving DecidableEq, Repr

/-- The synchronous part of calling an operation method: pause, resume and
unsubscribe always append their callback to the chain; refetch first applies
the guard of lines 64-68 (a non-forced call while refetching is pending
returns the current chain unchanged) and otherwise sets the refetching guard
(line 71) and appends. -/
def issue (m : Machine) (o : QOp) : Machine :=
  match o with
  | .refetch force =>
    if force = false ∧ m.inst.refetching = true then m
    else { m with inst := { m.inst with refetching := true },
                  queue := m.queue ++ [.refetch force] }
  | o => { m with queue := m.queue ++ [o] }

/-- Issue a whole list of operations back to back, without awaiting. -/
def issueAll (m : Machine) (ops : List QOp) : Machine :=
  ops.foldl issue m

/-- Settlement of the queued callbacks in order.  A link whose predecessor
rejected never runs its callback and rejects itself (then without a rejection
handler propagates the rejection), recorded as skipped. -/
def settleGo (eng : Engine) :
    List QOp → SubInst → Bool → Registry → Nat →
    SubInst × Bool × Registry × Nat × List Outcome
  | [], s, f, reg, n => (s, f, reg, n, [])
  | o :: q, s, f, reg, n =>
    if f then
      let r := settleGo eng q s f reg n
      (r.1, r.2.1, r.2.2.1, r.2.2.2.1, Outcome.skipped :: r.2.2.2.2)
    else
      let x := runOp eng o s reg n
      let r := settleGo eng q x.1 (decide (x.2.2.2 = Outcome.rejected)) x.2.1 x.2.2.1
      (r.1, r.2.1, r.2.2.1, r.2.2.2.1, x.2.2.2 :: r.2.2.2.2)

/-- Let every pending link of the chain settle: the machine afterwards, the
registry, the trip count, and the outcome of each formerly queued link. -/
def settle (eng : Engine) (m : Machine) (reg : Registry) (n : Nat) :
    Machine × Registry × Nat × List Outcome :=
  let r := settleGo eng m.queue m.inst m.failed reg n
  (⟨r.1, [], r.2.1⟩, r.2.2.1, r.2.2.2.1, r.2.2.2.2)

/-- reset (lines 56-59): next is replaced by an already-resolved promise, so
subsequently issued operations chain onto a fresh fulfilled chain.  In this
model the replaced chain is discarded; the developments below apply reset to
machines whose chain has already settled, where this is exact. -/
def reset (m : Machine) : Machine :=
  { m with queue := [], failed := false }

/-- Issue the operations one at a time, letting the whole chain settle after
each call, and concatenate the observed outcomes. -/
def runOneAtATime (eng : Engine) :
    Machine → Registry → Nat → List QOp →
    Machine × Registry × Nat × List Outcome
  | m, reg, n, [] => (m, reg, n, [])
  | m, reg, n, o :: ops =>
    let x := settle eng (issue m o) reg n
    let r := runOneAtATime eng x.1 x.2.1 x.2.2.1 ops
    (r.1, r.2.1, r.2.2.1, x.2.2.2 ++ r.2.2.2)

/-- Modelled from the spec: the reference sequential semantics of section 8
of the specification, in which the operations are applied one at a time in
issue order and a failing operation rejects only its own promise, so every
later operation still executes from the state the earlier ones left behind. -/
def specSeqIdeal (eng : Engine) :
    List QOp → SubInst → Registry → Nat →
    SubInst × Registry × Nat × List Outcome
  | [], s, reg, n => (s, reg, n, [])
  | o :: ops, s, reg, n =>
    let x := runOp eng o s reg n
    let r := specSeqIdeal eng ops x.1 x.2.1 x.2.2.1
    (r.1, r.2.1, r.2.2.1, x.2.2.2 :: r.2.2.2)

/-- The client-side world: every live Subscription instance with its chain,
the shared registry, and the number of round trips performed so far. -/
structure World where
  machines : List Machine
  registry : Registry
  trips : Nat
deriving Repr

/-- Find the instance carrying a given iid (the reference stored in the
registry object resolves to the instance itself). -/
def World.findM (w : World) (iid : Nat) : Option Machine :=
  w.machines.find? (fun m => m.inst.iid = iid)

/-- Replace the instance carrying a given iid. -/
def World.setM (w : World) (iid : Nat) (m : Machine) : World :=
  { w with machines := w.machines.map (fun m' => if m'.inst.iid = iid then m else m') }

/-- Call an operation method on the instance carrying a given iid: only the
synchronous issue happens here. -/
def worldIssue (w : World) (iid : Nat) (o : QOp) : World :=
  match w.findM iid with
  | none => w
  | some m => w.setM iid (issue m o)

/-- Let the chain of the instance carrying a given iid settle completely,
returning the new world and the outcomes of the settled links. -/
def worldSettle (eng : Engine) (w : World) (iid : Nat) : World × List Outcome :=
  match w.findM iid with
  | none => (w, [])
  | some m =>
    let r := settle eng m w.registry w.trips
    ({ machines := (w.setM iid r.1).machines, registry := r.2.1, trips := r.2.2.1 },
     r.2.2.2)

/-- Which Subscription instances of a world carry a given sid while in state
subscribed or paused (the instances the registry invariant of the
specification speaks about). -/
def World.carriers (w : World) (sid : String) : List Machine :=
  w.machines.filter
    (fun m => m.inst.sid = sid ∧ (m.inst.st = .subscribed ∨ m.inst.st = .paused))

/-- A method call made by the connection open handler, for trace purposes. -/
inductive HCall
  | reset (iid : Nat)
  | refetchForced (iid : Nat)
deriving DecidableEq, Repr

/-- One step of the inner forEach of the open handler (src/unnamed/part_001
lines 226-229): on the instance registered under the current iid, call reset
and then refetch with force, recording both calls in the trace. -/
def openStep (acc : World × List HCall) (iid : Nat) : World × List HCall :=
  let w2 :=
    match acc.1.findM iid with
    | none => acc.1
    | some m => acc.1.setM iid (issue (reset m) (.refetch true))
  (w2, acc.2 ++ [HCall.reset iid, HCall.refetchForced iid])

/-- The outer forEach body of the open handler: process every iid registered
under one sid entry. -/
def openEntry (acc : World × List HCall) (e : String × List Nat) : World × List HCall :=
  e.2.foldl openStep acc

/-- The transport open handler (src/unnamed/part_001 lines 222-231): for every
sid currently in the registry, for every iid registered under it, call reset
and then refetch with force, in that order, on that instance.  Only the
synchronous part of refetch runs here; the world after the handler and the
trace of calls are returned. -/
def openHandler (w : World) : World × List HCall :=
  w.registry.foldl openEntry (w, [])

/-- The transport close handler (src/unnamed/part_001 line 122) only re-emits
the close event: no registry or subscription state is touched. -/
def closeHandler (w : World) : World := w

/-- Number of registrations a given iid holds across all registry entries. -/
def regCountInst (reg : Registry) (iid : Nat) : Nat :=
  (reg.map (fun e => e.2.count iid)).sum

/-- Insertion into an ordered set of sids (the OSet used by the notification
handler: add keeps insertion order and ignores an already-present element). -/
def osetAdd (l : List String) (s : String) : List String :=
  if l.contains s then l else l ++ [s]

/-- Modelled from the spec: the state of the notification coalescer of
section 4.3, realized in the source by the external Chunking module
(src/unnamed/part_001 lines 190-211) whose implementation is not part of this
repository: the pending deduplicated batch of sids and whether the single
throttle timer is running. -/
structure Coalescer where
  pending : List String
  timer : Bool
deriving DecidableEq, Repr

/-- Modelled from the spec: absorbing one raw inbound invalidation message (a
list of sids): its entries are merged into the pending batch and the timer is
started if it is not already running. -/
def absorbMsg (c : Coalescer) (msg : List String) : Coalescer :=
  { pending := msg.foldl osetAdd c.pending, timer := true }

/-- One call of the inner forEach of the emit callback (src/unnamed/part_001
lines 204-206): refetch without force on the instance registered under the
current iid, recording the call in the trace. -/
def dispatchInstStep (acc : World × List Nat) (iid : Nat) : World × List Nat :=
  (worldIssue acc.1 iid (.refetch false), acc.2 ++ [iid])

/-- The body of the dispatch loop for one sid of the batch: if its registry
entry exists, call refetch without force on every iid registered under it;
otherwise pass over the sid without any call and without an error. -/
def dispatchSidStep (acc : World × List Nat) (sid : String) : World × List Nat :=
  match regLookup acc.1.registry sid with
  | none => acc
  | some iids => iids.foldl dispatchInstStep acc

/-- The dispatch step run when the throttle timer fires (the emit callback,
src/unnamed/part_001 lines 197-209): for every sid of the batch whose registry
entry exists, call refetch without force on every instance registered under
it; sids without an entry are passed over.  Returns the world after all the
calls and the trace of iids on which refetch was called. -/
def dispatchBatch (w : World) (sids : List String) : World × List Nat :=
  sids.foldl dispatchSidStep (w, [])

/-- Firing of the throttle timer: the accumulated batch is dispatched and the
coalescer returns to an empty batch with no running timer. -/
def fireTimer (w : World) (c : Coalescer) : World × Coalescer × List Nat :=
  let r := dispatchBatch w c.pending
  (r.1, ⟨[], false⟩, r.2)

/-- The default of the throttle option (src/unnamed/part_001 line 60). -/
def throttleDefault : Nat := 250

/-- A GraphQL data payload, concretely a flat object of numeric fields (the
processing pipeline only ever tests the field for truthiness, and a GraphQL
data value is an object or null). -/
abbrev DataV := List (String × Nat)

/-- An error entry of a result. -/
abbrev ErrV := String

/-- A raw or processed operation result: the data field (none for null or
absent) and the errors field (none when the field is absent, some for a
present array, possibly empty). -/
structure GResult where
  data : Option DataV
  errors : Option (List ErrV)
deriving DecidableEq, Repr

/-- The options consulted by Query.__processResults: dataStrict, errorsPass
and the optional compiled dataRequire validator, modelled as a function from
the data field to the list of violation messages (empty means valid).  The
errorsEmit option is not read here: it gates the client error channel inside
the error handler itself (src/unnamed/part_001 line 367). -/
structure POpts where
  dataStrict : Bool
  errorsPass : Bool
  dataRequire : Option (Option DataV → List ErrV)

/-- The option defaults of Client._graphql (src/unnamed/part_001 lines
334-339): errorsPass true, dataStrict false, dataRequire null. -/
def defaultOpts : POpts :=
  { dataStrict := false, errorsPass := true, dataRequire := none }

/-- What Query.__processResults produced: the result object after all
rewriting, the error surfaced to the error channel (the first entry of a
non-empty errors array, line 141), and whether the result callback was
invoked (lines 171-173). -/
structure PResult where
  result : GResult
  emitted : Option ErrV
  delivered : Bool
deriving Repr

/-- Query.__processResults (graphql-io-2-query.js lines 117-176).  The flags
anyData and anyErrors are the truthiness of the data and errors fields (an
empty errors array is truthy).  Steps in source order: the optional
dataRequire validation appends its violations to the errors array, creating
the array first if the field was absent; a non-empty errors array surfaces
its first entry to the error channel; with dataStrict, a result having both
data and errors loses its data; without errorsPass the errors field is
deleted; the symbol cleanup does not change the modelled content; the result
callback is invoked only if any data or errors remain by these flags. -/
def processResults (opts : POpts) (r0 : GResult) : PResult :=
  let anyData := r0.data.isSome
  let anyErrors := r0.errors.isSome
  let (r1, anyErrors1) :=
    match opts.dataRequire with
    | none => (r0, anyErrors)
    | some v =>
      let es := v r0.data
      if es = [] then (r0, anyErrors)
      else
        let base := if anyErrors then r0.errors.getD [] else []
        ({ r0 with errors := some (base ++ es) }, true)
  let emitted :=
    match r1.errors with
    | some (e :: _) => some e
    | _ => none
  let (r2, anyData2) :=
    if anyData ∧ anyErrors1 ∧ opts.dataStrict = true then
      ({ r1 with data := none }, false)
    else (r1, anyData)
  let (r3, anyErrors3) :=
    if anyErrors1 ∧ opts.errorsPass = false then
      ({ r2 with errors := none }, false)
    else (r2, anyErrors1)
  { result := r3, emitted := emitted, delivered := anyData2 || anyErrors3 }

/-- An engine oracle whose round trips all succeed and never carry a
subscription token. -/
def engAllOk : Engine :=
  { ok := fun _ => true, tok := fun _ => none }

/-- An engine oracle whose round trips all succeed, the first two carrying
the subscription tokens a and b. -/
def engTok : Engine :=
  { ok := fun _ => true,
    tok := fun n => if n = 0 then some "a" else if n = 1 then some "b" else none }

/-- A sample instance: subscribed, iid 0, sid s, settled empty chain. -/
def sampleM : Machine := ⟨⟨.subscribed, 0, "s", false⟩, [], false⟩

/-- A sample instance in the paused state with a settled empty chain. -/
def samplePausedM : Machine := ⟨⟨.paused, 0, "s", false⟩, [], false⟩

/-- A sample registry holding the sample instance under its sid. -/
def sampleReg : Registry := [("s", [0])]

/-- A fresh one-instance world before the first fetch: no sid assigned yet,
nothing registered, no round trips performed. -/
def cexW0 : World := ⟨[⟨⟨.subscribed, 0, "", false⟩, [], false⟩], [], 0⟩

/-- The world after one settled non-forced refetch against the engine that
answers with token a: the instance carries sid a and is registered under it. -/
def cexW1 : World := (worldSettle engTok (worldIssue cexW0 0 (.refetch false)) 0).1

/-- The world after a second settled refetch, now answered with token b: the
instance carries sid b, yet the stale entry under a persists alongside the
new entry under b. -/
def cexW2 : World := (worldSettle engTok (worldIssue cexW1 0 (.refetch false)) 0).1

/-! Theorems.  Helper lemmas come first, then one theorem per claim together
with its counterexample and witness where required. -/

theorem runOp_refetch_st_iid (eng : Engine) (f : Bool) (s : SubInst) (reg : Registry)
    (n : Nat) :
    (runOp eng (.refetch f) s reg n).1.st = s.st ∧
    (runOp eng (.refetch f) s reg n).1.iid = s.iid := by
  simp only [runOp]
  split
  · exact ⟨rfl, rfl⟩
  · split
    · exact ⟨rfl, rfl⟩
    · split
      · split <;> exact ⟨rfl, rfl⟩
      · exact ⟨rfl, rfl⟩

theorem issue_st_iid (m : Machine) (o : QOp) :
    (issue m o).inst.st = m.inst.st ∧ (issue m o).inst.iid = m.inst.iid := by
  cases o with
  | refetch f =>
    simp only [issue]
    split
    · exact ⟨rfl, rfl⟩
    · exact ⟨rfl, rfl⟩
  | pause => exact ⟨rfl, rfl⟩
  | resume => exact ⟨rfl, rfl⟩
  | unsubscribe => exact ⟨rfl, rfl⟩

/-- Every round trip of a refetch, forced or not, successful, dropped or
failed, leaves the lifecycle state and the instance id untouched; the
synchronous issue of any operation does likewise; and an executed operation
that does change the lifecycle state is necessarily a pause, a resume or an
unsubscribe. -/
theorem c10_refetch_frame :
    (∀ (eng : Engine) (f : Bool) (s : SubInst) (reg : Registry) (n : Nat),
       (runOp eng (.refetch f) s reg n).1.st = s.st ∧
       (runOp eng (.refetch f) s reg n).1.iid = s.iid) ∧
    (∀ (m : Machine) (o : QOp),
       (issue m o).inst.st = m.inst.st ∧ (issue m o).inst.iid = m.inst.iid) ∧
    (∀ (eng : Engine) (o : QOp) (s : SubInst) (reg : Registry) (n : Nat),
       (runOp eng o s reg n).1.st ≠ s.st →
       (o = QOp.pause ∨ o = QOp.resume ∨ o = QOp.unsubscribe)) := by
  refine ⟨runOp_refetch_st_iid, issue_st_iid, ?_⟩
  intro eng o s reg n h
  cases o with
  | pause => exact Or.inl rfl
  | resume => exact Or.inr (Or.inl rfl)
  | unsubscribe => exact Or.inr (Or.inr rfl)
  | refetch f => exact absurd (runOp_refetch_st_iid eng f s reg n).1 h

/-- Witness: the frame theorem applied at a concrete executed pause that does
change the state. -/
theorem c10_refetch_frame_witness :
    QOp.pause = QOp.pause ∨ QOp.pause = QOp.resume ∨ QOp.pause = QOp.unsubscribe :=
  c10_refetch_frame.2.2 engAllOk QOp.pause sampleM.inst sampleReg 0 (by decide)

/-- Counterexample to claim C4 as stated: a raw result with data null and a
present but empty errors array is not suppressed under default options; the
truthiness test of the errors field (line 120) is true for an empty array, so
the result callback is invoked. -/
theorem c4_suppression_counterexample :
    (processResults defaultOpts ⟨none, some []⟩).delivered = true := rfl

/-- Claim C4 amended: under default options the result callback is invoked
exactly when the data field is non-null or the errors field is present at
all, an empty errors array included; a result with data null and the errors
field absent is suppressed. -/
theorem c4_suppression_amended (r : GResult) :
    (processResults defaultOpts r).delivered = (r.data.isSome || r.errors.isSome) := by
  simp only [processResults, defaultOpts]
  cases r.data <;> cases r.errors <;> simp

/-- Claim C9: with dataStrict and errorsPass, a result having both data and a
non-empty errors array is delivered with its data field emptied and its
errors intact; with dataStrict and errorsPass off, the processed result
carries neither data nor errors and is then suppressed entirely. -/
theorem c9_data_strict (d : DataV) (es : List ErrV) (h : es ≠ []) :
    ((processResults ⟨true, true, none⟩ ⟨some d, some es⟩).result.data = none ∧
     (processResults ⟨true, true, none⟩ ⟨some d, some es⟩).result.errors = some es ∧
     (processResults ⟨true, true, none⟩ ⟨some d, some es⟩).delivered = true) ∧
    ((processResults ⟨true, false, none⟩ ⟨some d, some es⟩).result.data = none ∧
     (processResults ⟨true, false, none⟩ ⟨some d, some es⟩).result.errors = none ∧
     (processResults ⟨true, false, none⟩ ⟨some d, some es⟩).delivered = false) := by
  cases es with
  | nil => exact absurd rfl h
  | cons e es' => simp [processResults]

/-- Witness: the dataStrict theorem at the raw result of the specification
scenario, data x equal to 1 with one error. -/
theorem c9_data_strict_witness :
    (["e"] ≠ ([] : List ErrV)) ∧
    (((processResults ⟨true, true, none⟩ ⟨some [("x", 1)], some ["e"]⟩).result.data = none ∧
      (processResults ⟨true, true, none⟩ ⟨some [("x", 1)], some ["e"]⟩).result.errors = some ["e"] ∧
      (processResults ⟨true, true, none⟩ ⟨some [("x", 1)], some ["e"]⟩).delivered = true) ∧
     ((processResults ⟨true, false, none⟩ ⟨some [("x", 1)], some ["e"]⟩).result.data = none ∧
      (processResults ⟨true, false, none⟩ ⟨some [("x", 1)], some ["e"]⟩).result.errors = none ∧
      (processResults ⟨true, false, none⟩ ⟨some [("x", 1)], some ["e"]⟩).delivered = false)) :=
  ⟨by decide, c9_data_strict [("x", 1)] ["e"] (by decide)⟩

/-- Counterexample to claim C2 as stated: a non-forced refetch reaching the
front of the chain on a paused but still registered instance is not silently
dropped; the drop branch requires not-subscribed AND not-registered (lines
79-82), so the guard falls through and line 88 throws, rejecting the chain.
A forced refetch on the same instance also rejects instead of proceeding: no
round trip is performed in either case. -/
theorem c2_refetch_drop_counterexample :
    (settle engAllOk (issue samplePausedM (.refetch false)) sampleReg 0).2.2.2 =
      [Outcome.rejected] ∧
    (settle engAllOk (issue samplePausedM (.refetch false)) sampleReg 0).1.failed = true ∧
    (settle engAllOk (issue samplePausedM (.refetch false)) sampleReg 0).2.2.1 = 0 ∧
    (settle engAllOk (issue samplePausedM (.refetch true)) sampleReg 0).2.2.2 =
      [Outcome.rejected] ∧
    (settle engAllOk (issue samplePausedM (.refetch true)) sampleReg 0).2.2.1 = 0 := by
  decide

/-- Claim C2 amended: a refetch reaching the front of the chain is silently
dropped exactly when it is not forced, the state is not subscribed and the
instance is not registered under its sid; when the state is not subscribed
but the refetch is forced or the instance is still registered, the refetch
rejects the chain instead; the execution-engine round trip happens exactly
when the state is subscribed, and in every other case the trip counter is
untouched. -/
theorem c2_refetch_precondition (eng : Engine) (f : Bool) (s : SubInst) (reg : Registry)
    (n : Nat) :
    ((runOp eng (.refetch f) s reg n).2.2.2 = Outcome.dropped ↔
       (f = false ∧ s.st ≠ .subscribed ∧ regHasInst reg s.sid s.iid = false)) ∧
    ((runOp eng (.refetch f) s reg n).2.2.2 = Outcome.rejected ↔
       (s.st ≠ .subscribed ∧ (f = true ∨ regHasInst reg s.sid s.iid = true))) ∧
    ((runOp eng (.refetch f) s reg n).2.2.1 = n + 1 ↔ s.st = .subscribed) ∧
    (s.st ≠ .subscribed → (runOp eng (.refetch f) s reg n).2.2.1 = n) := by
  by_cases hs : s.st = .subscribed
  · have hdrop : ¬ (f = false ∧ s.st ≠ .subscribed ∧ regHasInst reg s.sid s.iid = false) := by
      intro h; exact h.2.1 hs
    simp only [runOp, if_neg hdrop, hs, ne_eq, not_true_eq_false, if_false]
    by_cases hok : eng.ok n = true
    · simp only [hok, if_true]
      cases htok : eng.tok n with
      | some t => simp [hs]
      | none => simp [hs]
    · simp only [Bool.not_eq_true] at hok
      simp [hok, hs]
  · by_cases hr : regHasInst reg s.sid s.iid = true
    · have hdrop : ¬ (f = false ∧ s.st ≠ .subscribed ∧ regHasInst reg s.sid s.iid = false) := by
        intro h; rw [hr] at h; exact absurd h.2.2 (by simp)
      simp only [runOp, if_neg hdrop, if_pos hs]
      simp [hs, hr]
    · simp only [Bool.not_eq_true] at hr
      cases f with
      | false =>
        have hdrop : (false : Bool) = false ∧ s.st ≠ .subscribed ∧
            regHasInst reg s.sid s.iid = false := ⟨rfl, hs, hr⟩
        simp only [runOp, if_pos hdrop]
        simp [hs, hr]
      | true =>
        have hdrop : ¬ ((true : Bool) = false ∧ s.st ≠ .subscribed ∧
            regHasInst reg s.sid s.iid = false) := by
          intro h; exact absurd h.1 (by simp)
        simp [runOp, hdrop, hs, hr]

/-- Witness: the amended refetch precondition applied to the paused yet
registered sample instance, where a non-forced refetch performs no round
trip. -/
theorem c2_refetch_precondition_witness :
    (runOp engAllOk (.refetch false) samplePausedM.inst sampleReg 0).2.2.1 = 0 :=
  (c2_refetch_precondition engAllOk false samplePausedM.inst sampleReg 0).2.2.2 (by decide)

/-- Counterexample to claim C1 as stated: issuing pause, pause, resume back
to back from the subscribed state leaves the chain rejected after the second
pause, so the resume callback never runs (its link merely propagates the
rejection) and the final state is paused, while applying the same operations
one at a time with each failure confined to its own promise would end
subscribed.  An InvalidState failure therefore does not reject only its own
promise, and a subsequently issued operation does not execute. -/
theorem c1_chain_counterexample :
    (settle engAllOk (issueAll sampleM [.pause, .pause, .resume]) sampleReg 0).1.inst.st =
      SubState.paused ∧
    (settle engAllOk (issueAll sampleM [.pause, .pause, .resume]) sampleReg 0).2.2.2 =
      [Outcome.fulfilled, Outcome.rejected, Outcome.skipped] ∧
    (specSeqIdeal engAllOk [.pause, .pause, .resume] sampleM.inst sampleReg 0).1.st =
      SubState.subscribed ∧
    (specSeqIdeal engAllOk [.pause, .pause, .resume] sampleM.inst sampleReg 0).2.2.2 =
      [Outcome.fulfilled, Outcome.rejected, Outcome.fulfilled] := by
  decide

/-- Counterexample to claim C6 as stated: after two settled refetches whose
answers carry first token a, then token b, the registry holds an entry under
a although the only instance now carries sid b, so a serverId key exists with
no subscription carrying that serverId in state subscribed or paused. -/
theorem c6_registry_invariant_counterexample :
    (regLookup cexW2.registry "a").isSome = true ∧
    cexW2.carriers "a" = [] ∧
    cexW2.machines.length = 1 := by
  decide

/-- Counterexample to claim C7 as stated: in the reachable world where the
single instance is registered under both the stale sid a and the current sid
b, the transport open handler performs two resets and two forced refetches on
that one instance, not exactly one of each. -/
theorem c7_open_handler_counterexample :
    ((openHandler cexW2).2.count (HCall.refetchForced 0)) = 2 ∧
    ((openHandler cexW2).2.count (HCall.reset 0)) = 2 ∧
    cexW2.machines.length = 1 := by
  decide

/-- Claim C3: two non-forced refetches issued back to back on a subscribed
instance with a settled chain coalesce: the second call finds the refetching
guard set and enqueues nothing, exactly one engine round trip happens when
the chain settles, the guard is cleared by the finally clause, and a later
non-forced refetch issued after settlement enqueues and performs a second
round trip. -/
theorem c3_refetch_coalescing (eng : Engine) (m : Machine) (reg : Registry) (n : Nat)
    (h1 : m.inst.st = .subscribed) (h2 : m.inst.refetching = false)
    (h3 : m.queue = []) (h4 : m.failed = false) :
    (issueAll m [.refetch false, .refetch false]).queue = [QOp.refetch false] ∧
    (settle eng (issueAll m [.refetch false, .refetch false]) reg n).2.2.1 = n + 1 ∧
    (settle eng (issueAll m [.refetch false, .refetch false]) reg n).1.inst.refetching
      = false ∧
    (settle eng (issueAll m [.refetch false, .refetch false]) reg n).1.inst.st
      = SubState.subscribed ∧
    (issue (settle eng (issueAll m [.refetch false, .refetch false]) reg n).1
       (.refetch false)).queue = [QOp.refetch false] ∧
    (settle eng
       (issue (settle eng (issueAll m [.refetch false, .refetch false]) reg n).1
         (.refetch false))
       (settle eng (issueAll m [.refetch false, .refetch false]) reg n).2.1
       (n + 1)).2.2.1 = n + 2 := by
  obtain ⟨⟨st, iid, sid, rf⟩, q, fl⟩ := m
  dsimp only at h1 h2 h3 h4
  subst h1 h2 h3 h4
  have key : ∀ (s : SubInst) (reg' : Registry) (k : Nat), s.st = .subscribed →
      (settle eng ⟨s, [QOp.refetch false], false⟩ reg' k).2.2.1 = k + 1 ∧
      (settle eng ⟨s, [QOp.refetch false], false⟩ reg' k).1.inst.refetching = false ∧
      (settle eng ⟨s, [QOp.refetch false], false⟩ reg' k).1.inst.st = SubState.subscribed ∧
      (settle eng ⟨s, [QOp.refetch false], false⟩ reg' k).1.failed = false := by
    intro s reg' k hs
    obtain ⟨st', iid', sid', rf'⟩ := s
    dsimp only at hs
    subst hs
    simp only [settle, settleGo, runOp]
    cases hok : eng.ok k with
    | true => cases htok : eng.tok k <;> simp
    | false => simp
  have hq : issueAll ⟨⟨.subscribed, iid, sid, false⟩, [], false⟩
      [.refetch false, .refetch false] =
      ⟨⟨.subscribed, iid, sid, true⟩, [QOp.refetch false], false⟩ := by
    simp [issueAll, issue]
  rw [hq]
  obtain ⟨k1, k2, k3, k4⟩ := key ⟨.subscribed, iid, sid, true⟩ reg n rfl
  have hq0 : (settle eng ⟨⟨.subscribed, iid, sid, true⟩, [QOp.refetch false], false⟩
      reg n).1.queue = [] := rfl
  rcases hS : settle eng ⟨⟨.subscribed, iid, sid, true⟩, [QOp.refetch false], false⟩
      reg n with ⟨m1, reg1, n1, outs⟩
  rw [hS] at k1 k2 k3 k4 hq0
  dsimp only at k1 k2 k3 k4 hq0
  dsimp only
  obtain ⟨⟨st1, iid1, sid1, rf1⟩, q1, fl1⟩ := m1
  dsimp only at k2 k3 k4 hq0
  subst k2 k3 k4 hq0
  refine ⟨rfl, k1, rfl, rfl, rfl, ?_⟩
  exact (key ⟨.subscribed, iid1, sid1, true⟩ reg1 (n + 1) rfl).1

/-- Witness: the coalescing theorem at the subscribed sample instance, where
the two back-to-back refetches settle with exactly one round trip. -/
theorem c3_refetch_coalescing_witness :
    (settle engAllOk (issueAll sampleM [.refetch false, .refetch false])
      sampleReg 0).2.2.1 = 0 + 1 :=
  (c3_refetch_coalescing engAllOk sampleM sampleReg 0 rfl rfl rfl rfl).2.1

theorem regLookup_cons (s : String) (l : List Nat) (rest : Registry) (sid : String) :
    regLookup ((s, l) :: rest) sid = if s = sid then some l else regLookup rest sid := rfl

theorem regRemove_cons (s : String) (l : List Nat) (rest : Registry) (sid : String)
    (iid : Nat) :
    regRemove ((s, l) :: rest) sid iid =
      if s = sid then (if l.erase iid = [] then rest else (s, l.erase iid) :: rest)
      else (s, l) :: regRemove rest sid iid := rfl

theorem regLookup_eq_none_of_not_mem (reg : Registry) (sid : String)
    (h : sid ∉ reg.map Prod.fst) : regLookup reg sid = none := by
  induction reg with
  | nil => rfl
  | cons e rest ih =>
    obtain ⟨e1, e2⟩ := e
    simp only [List.map_cons, List.mem_cons, not_or] at h
    rw [regLookup_cons, if_neg (fun hx => h.1 hx.symm)]
    exact ih h.2

theorem regLookup_regRemove_self (reg : Registry) (sid : String) (iid : Nat)
    (l : List Nat) (hk : (reg.map Prod.fst).Nodup) (h : regLookup reg sid = some l) :
    regLookup (regRemove reg sid iid) sid =
      if l.erase iid = [] then none else some (l.erase iid) := by
  induction reg with
  | nil => simp [regLookup] at h
  | cons e rest ih =>
    obtain ⟨e1, e2⟩ := e
    simp only [List.map_cons, List.nodup_cons] at hk
    by_cases hs : e1 = sid
    · subst hs
      rw [regLookup_cons, if_pos rfl] at h
      injection h with h
      subst h
      rw [regRemove_cons, if_pos rfl]
      by_cases he : e2.erase iid = []
      · rw [if_pos he, if_pos he]
        exact regLookup_eq_none_of_not_mem rest e1 hk.1
      · rw [if_neg he, if_neg he, regLookup_cons, if_pos rfl]
    · rw [regLookup_cons, if_neg hs] at h
      rw [regRemove_cons, if_neg hs, regLookup_cons, if_neg hs]
      exact ih hk.2 h

theorem regHasInst_regRemove_self (reg : Registry) (sid : String) (iid : Nat)
    (l : List Nat) (hk : (reg.map Prod.fst).Nodup) (h : regLookup reg sid = some l)
    (hl : l.Nodup) :
    regHasInst (regRemove reg sid iid) sid iid = false := by
  unfold regHasInst
  rw [regLookup_regRemove_self reg sid iid l hk h]
  by_cases he : l.erase iid = []
  · rw [if_pos he]
  · rw [if_neg he]
    have hnm : iid ∉ l.erase iid := fun hm => ((List.Nodup.mem_erase_iff hl).1 hm).1 rfl
    simpa using hnm

/-- Claim C5: on an instance that is not unsubscribed, registered under its
sid with a settled chain, a first unsubscribe fulfills with true, removes the
instance from the registry entry (deleting the key exactly when the entry
becomes empty) and transitions to unsubscribed; afterwards every further
operation leaves the state, the registry and the trip counter unchanged and
never fulfills, and in particular a second unsubscribe rejects with the
InvalidState error, so the registry entry is removed exactly once. -/
theorem c5_unsubscribe_idempotent (eng : Engine) (m : Machine) (reg : Registry) (n : Nat)
    (l : List Nat)
    (h1 : m.inst.st ≠ .unsubscribed) (h2 : m.queue = []) (h3 : m.failed = false)
    (h4 : m.inst.refetching = false)
    (h5 : regLookup reg m.inst.sid = some l) (h6 : m.inst.iid ∈ l) (h7 : l.Nodup)
    (h8 : (reg.map Prod.fst).Nodup) (h9 : eng.ok n = true) :
    (settle eng (issue m .unsubscribe) reg n).2.2.2 = [Outcome.fulfilled] ∧
    (settle eng (issue m .unsubscribe) reg n).1.inst.st = SubState.unsubscribed ∧
    regHasInst (settle eng (issue m .unsubscribe) reg n).2.1 m.inst.sid m.inst.iid
      = false ∧
    (l.erase m.inst.iid = [] →
      regLookup (settle eng (issue m .unsubscribe) reg n).2.1 m.inst.sid = none) ∧
    (l.erase m.inst.iid ≠ [] →
      regLookup (settle eng (issue m .unsubscribe) reg n).2.1 m.inst.sid
        = some (l.erase m.inst.iid)) ∧
    (∀ o : QOp,
      (settle eng (issue (settle eng (issue m .unsubscribe) reg n).1 o)
        (settle eng (issue m .unsubscribe) reg n).2.1
        (settle eng (issue m .unsubscribe) reg n).2.2.1).1.inst.st
        = SubState.unsubscribed ∧
      (settle eng (issue (settle eng (issue m .unsubscribe) reg n).1 o)
        (settle eng (issue m .unsubscribe) reg n).2.1
        (settle eng (issue m .unsubscribe) reg n).2.2.1).2.1
        = (settle eng (issue m .unsubscribe) reg n).2.1 ∧
      (settle eng (issue (settle eng (issue m .unsubscribe) reg n).1 o)
        (settle eng (issue m .unsubscribe) reg n).2.1
        (settle eng (issue m .unsubscribe) reg n).2.2.1).2.2.1
        = (settle eng (issue m .unsubscribe) reg n).2.2.1 ∧
      Outcome.fulfilled ∉
        (settle eng (issue (settle eng (issue m .unsubscribe) reg n).1 o)
          (settle eng (issue m .unsubscribe) reg n).2.1
          (settle eng (issue m .unsubscribe) reg n).2.2.1).2.2.2) ∧
    (settle eng (issue (settle eng (issue m .unsubscribe) reg n).1 .unsubscribe)
      (settle eng (issue m .unsubscribe) reg n).2.1
      (settle eng (issue m .unsubscribe) reg n).2.2.1).2.2.2 = [Outcome.rejected] := by
  obtain ⟨⟨st, iid, sid, rf⟩, q, fl⟩ := m
  dsimp only at h1 h2 h3 h4 h5 h6
  subst h2 h3 h4
  have hS1 : settle eng (issue ⟨⟨st, iid, sid, false⟩, [], false⟩ .unsubscribe) reg n =
      (⟨⟨.unsubscribed, iid, sid, false⟩, [], false⟩, regRemove reg sid iid, n + 1,
        [Outcome.fulfilled]) := by
    simp [issue, settle, settleGo, runOp, h1, h9, h5]
  have hreg : regHasInst (regRemove reg sid iid) sid iid = false :=
    regHasInst_regRemove_self reg sid iid l h8 h5 h7
  dsimp only
  rw [hS1]
  dsimp only
  have hrr := regLookup_regRemove_self reg sid iid l h8 h5
  refine ⟨rfl, rfl, hreg, ?_, ?_, ?_, ?_⟩
  · intro he; rw [hrr, if_pos he]
  · intro he; rw [hrr, if_neg he]
  · intro o
    cases o with
    | pause =>
      have hx : settle eng (issue ⟨⟨.unsubscribed, iid, sid, false⟩, [], false⟩ .pause)
          (regRemove reg sid iid) (n + 1) =
          (⟨⟨.unsubscribed, iid, sid, false⟩, [], true⟩, regRemove reg sid iid, n + 1,
            [Outcome.rejected]) := by
        simp [issue, settle, settleGo, runOp]
      rw [hx]
      exact ⟨rfl, rfl, rfl, by simp⟩
    | resume =>
      have hx : settle eng (issue ⟨⟨.unsubscribed, iid, sid, false⟩, [], false⟩ .resume)
          (regRemove reg sid iid) (n + 1) =
          (⟨⟨.unsubscribed, iid, sid, false⟩, [], true⟩, regRemove reg sid iid, n + 1,
            [Outcome.rejected]) := by
        simp [issue, settle, settleGo, runOp]
      rw [hx]
      exact ⟨rfl, rfl, rfl, by simp⟩
    | unsubscribe =>
      have hx : settle eng
          (issue ⟨⟨.unsubscribed, iid, sid, false⟩, [], false⟩ .unsubscribe)
          (regRemove reg sid iid) (n + 1) =
          (⟨⟨.unsubscribed, iid, sid, false⟩, [], true⟩, regRemove reg sid iid, n + 1,
            [Outcome.rejected]) := by
        simp [issue, settle, settleGo, runOp]
      rw [hx]
      exact ⟨rfl, rfl, rfl, by simp⟩
    | refetch f =>
      cases f with
      | false =>
        have hx : settle eng
            (issue ⟨⟨.unsubscribed, iid, sid, false⟩, [], false⟩ (.refetch false))
            (regRemove reg sid iid) (n + 1) =
            (⟨⟨.unsubscribed, iid, sid, true⟩, [], false⟩, regRemove reg sid iid, n + 1,
              [Outcome.dropped]) := by
          simp [issue, settle, settleGo, runOp, hreg]
        rw [hx]
        exact ⟨rfl, rfl, rfl, by simp⟩
      | true =>
        have hx : settle eng
            (issue ⟨⟨.unsubscribed, iid, sid, false⟩, [], false⟩ (.refetch true))
            (regRemove reg sid iid) (n + 1) =
            (⟨⟨.unsubscribed, iid, sid, true⟩, [], true⟩, regRemove reg sid iid, n + 1,
              [Outcome.rejected]) := by
          simp [issue, settle, settleGo, runOp]
        rw [hx]
        exact ⟨rfl, rfl, rfl, by simp⟩
  · have hx : settle eng
        (issue ⟨⟨.unsubscribed, iid, sid, false⟩, [], false⟩ .unsubscribe)
        (regRemove reg sid iid) (n + 1) =
        (⟨⟨.unsubscribed, iid, sid, false⟩, [], true⟩, regRemove reg sid iid, n + 1,
          [Outcome.rejected]) := by
      simp [issue, settle, settleGo, runOp]
    rw [hx]

/-- Witness: the idempotence theorem at the subscribed registered sample
instance, its first unsubscribe fulfilling with true. -/
theorem c5_unsubscribe_idempotent_witness :
    (settle engAllOk (issue sampleM .unsubscribe) sampleReg 0).2.2.2 =
      [Outcome.fulfilled] :=
  (c5_unsubscribe_idempotent engAllOk sampleM sampleReg 0 [0] (by decide) rfl rfl rfl
    (by decide) (by decide) (by decide) (by decide) rfl).1

theorem regRegister_entries_ne (reg : Registry) (sid : String) (iid : Nat)
    (h : ∀ e ∈ reg, e.2 ≠ []) : ∀ e ∈ regRegister reg sid iid, e.2 ≠ [] := by
  induction reg with
  | nil =>
    intro e he
    simp only [regRegister, List.mem_singleton] at he
    subst he
    simp
  | cons hd rest ih =>
    obtain ⟨s, l⟩ := hd
    intro e he
    simp only [regRegister] at he
    by_cases hs : s = sid
    · rw [if_pos hs] at he
      rcases List.mem_cons.1 he with he1 | he2
      · subst he1
        by_cases hm : iid ∈ l
        · simpa [hm] using h (s, l) (List.mem_cons_self _ _)
        · simp [hm]
      · exact h e (List.mem_cons_of_mem _ he2)
    · rw [if_neg hs] at he
      rcases List.mem_cons.1 he with he1 | he2
      · subst he1
        exact h (s, l) (List.mem_cons_self _ _)
      · exact ih (fun x hx => h x (List.mem_cons_of_mem _ hx)) e he2

theorem regRemove_entries_ne (reg : Registry) (sid : String) (iid : Nat)
    (h : ∀ e ∈ reg, e.2 ≠ []) : ∀ e ∈ regRemove reg sid iid, e.2 ≠ [] := by
  induction reg with
  | nil => intro e he; simp [regRemove] at he
  | cons hd rest ih =>
    obtain ⟨s, l⟩ := hd
    intro e he
    rw [regRemove_cons] at he
    by_cases hs : s = sid
    · rw [if_pos hs] at he
      by_cases hemp : l.erase iid = []
      · rw [if_pos hemp] at he
        exact h e (List.mem_cons_of_mem _ he)
      · rw [if_neg hemp] at he
        rcases List.mem_cons.1 he with he1 | he2
        · subst he1; exact hemp
        · exact h e (List.mem_cons_of_mem _ he2)
    · rw [if_neg hs] at he
      rcases List.mem_cons.1 he with he1 | he2
      · subst he1
        exact h (s, l) (List.mem_cons_self _ _)
      · exact ih (fun x hx => h x (List.mem_cons_of_mem _ hx)) e he2

/-- Claim C6 amended: after any executed operation no empty registry entry
persists (an entry that would become empty is deleted outright), and two
distinct local instances registered under the same sid survive removal of
one of them, the other remaining reachable through the registry lookup.  The
biconditional of the original claim, a serverId key existing exactly when
some subscription carrying it is subscribed or paused, fails once a refetch
answer assigns a fresh sid to an already-registered instance: the stale key
persists while no instance carries it any longer. -/
theorem c6_registry_amended :
    (∀ (eng : Engine) (o : QOp) (s : SubInst) (reg : Registry) (n : Nat),
      (∀ e ∈ reg, e.2 ≠ []) → ∀ e ∈ (runOp eng o s reg n).2.1, e.2 ≠ []) ∧
    (∀ (reg : Registry) (sid : String) (i j : Nat) (l : List Nat),
      regLookup reg sid = some l → i ∈ l → j ∈ l → i ≠ j →
      (reg.map Prod.fst).Nodup →
      regHasInst (regRemove reg sid i) sid j = true) := by
  constructor
  · intro eng o s reg n h e he
    cases o with
    | pause =>
      simp only [runOp] at he
      split at he
      · exact h e he
      · split at he <;> exact h e he
    | resume =>
      simp only [runOp] at he
      split at he
      · exact h e he
      · split at he <;> exact h e he
    | unsubscribe =>
      simp only [runOp] at he
      split at he
      · exact h e he
      · split at he
        · split at he
          · exact h e he
          · exact regRemove_entries_ne reg s.sid s.iid h e he
        · exact h e he
    | refetch f =>
      simp only [runOp] at he
      split at he
      · exact h e he
      · split at he
        · exact h e he
        · split at he
          · split at he
            · exact regRegister_entries_ne reg _ s.iid h e he
            · exact h e he
          · exact h e he
  · intro reg sid i j l h hi hj hij hk
    have hrr := regLookup_regRemove_self reg sid i l hk h
    have hjm : j ∈ l.erase i := (List.mem_erase_of_ne (fun hx => hij hx.symm)).2 hj
    have hne : l.erase i ≠ [] := List.ne_nil_of_mem hjm
    unfold regHasInst
    rw [hrr, if_neg hne]
    simpa using hjm

/-- Witness: the amended registry theorem at a two-instance entry, the second
instance still reachable after the first is removed. -/
theorem c6_registry_amended_witness :
    regHasInst (regRemove [("s", [0, 1])] "s" 0) "s" 1 = true :=
  c6_registry_amended.2 [("s", [0, 1])] "s" 0 1 [0, 1] rfl (by decide) (by decide)
    (by decide) (by decide)

theorem openStep_trace (iids : List Nat) (acc : World × List HCall) :
    (iids.foldl openStep acc).2 =
      acc.2 ++ iids.flatMap (fun iid => [HCall.reset iid, HCall.refetchForced iid]) := by
  induction iids generalizing acc with
  | nil => simp
  | cons i is ih => simp [openStep, ih]

theorem openEntry_trace (entries : List (String × List Nat)) (acc : World × List HCall) :
    (entries.foldl openEntry acc).2 =
      acc.2 ++ entries.flatMap
        (fun e => e.2.flatMap (fun iid => [HCall.reset iid, HCall.refetchForced iid])) := by
  induction entries generalizing acc with
  | nil => simp
  | cons e es ih => simp [openEntry, ih, openStep_trace]

theorem count_resetRefetch_flatMap (iids : List Nat) (i : Nat) :
    ((iids.flatMap (fun iid => [HCall.reset iid, HCall.refetchForced iid])).count
      (HCall.refetchForced i)) = iids.count i ∧
    ((iids.flatMap (fun iid => [HCall.reset iid, HCall.refetchForced iid])).count
      (HCall.reset i)) = iids.count i := by
  induction iids with
  | nil => exact ⟨rfl, rfl⟩
  | cons j js ih =>
    constructor
    · simp only [List.flatMap_cons, List.count_append, List.count_cons, ih.1, beq_iff_eq]
      by_cases hj : j = i
      · subst hj; simp; omega
      · simp [hj]
    · simp only [List.flatMap_cons, List.count_append, List.count_cons, ih.2, beq_iff_eq]
      by_cases hj : j = i
      · subst hj; simp; omega
      · simp [hj]

theorem count_trace_reg (reg : Registry) (i : Nat) :
    ((reg.flatMap (fun e => e.2.flatMap
        (fun iid => [HCall.reset iid, HCall.refetchForced iid]))).count
      (HCall.refetchForced i)) = regCountInst reg i ∧
    ((reg.flatMap (fun e => e.2.flatMap
        (fun iid => [HCall.reset iid, HCall.refetchForced iid]))).count
      (HCall.reset i)) = regCountInst reg i := by
  induction reg with
  | nil => exact ⟨rfl, rfl⟩
  | cons e es ih =>
    constructor
    · simp only [List.flatMap_cons, List.count_append, ih.1, regCountInst,
        List.map_cons, List.sum_cons, (count_resetRefetch_flatMap e.2 i).1]
    · simp only [List.flatMap_cons, List.count_append, ih.2, regCountInst,
        List.map_cons, List.sum_cons, (count_resetRefetch_flatMap e.2 i).2]

/-- Claim C7 amended: the open handler performs, for every registration pair
of a sid entry and an iid under it, one reset followed by one forced refetch
in that order; the number of resets and of forced refetches an instance
receives equals its number of registrations, so it is exactly one when the
instance is registered under exactly one sid (but an instance registered
under a stale and a current sid is processed once per key); the close handler
mutates neither the registry nor any subscription state. -/
theorem c7_open_close_amended :
    (∀ w : World, (openHandler w).2 =
      w.registry.flatMap (fun e => e.2.flatMap
        (fun iid => [HCall.reset iid, HCall.refetchForced iid]))) ∧
    (∀ (w : World) (iid : Nat),
      ((openHandler w).2.count (HCall.refetchForced iid)) = regCountInst w.registry iid ∧
      ((openHandler w).2.count (HCall.reset iid)) = regCountInst w.registry iid) ∧
    (∀ (w : World) (iid : Nat), regCountInst w.registry iid = 1 →
      ((openHandler w).2.count (HCall.refetchForced iid)) = 1) ∧
    (∀ w : World, closeHandler w = w) := by
  have htrace : ∀ w : World, (openHandler w).2 =
      w.registry.flatMap (fun e => e.2.flatMap
        (fun iid => [HCall.reset iid, HCall.refetchForced iid])) := by
    intro w
    unfold openHandler
    rw [openEntry_trace]
    simp
  refine ⟨htrace, ?_, ?_, fun _ => rfl⟩
  · intro w iid
    rw [htrace]
    exact count_trace_reg w.registry iid
  · intro w iid h1
    rw [htrace, (count_trace_reg w.registry iid).1, h1]

/-- Witness: the amended open-handler theorem at a world whose single
instance is registered exactly once, receiving exactly one forced refetch. -/
theorem c7_open_close_amended_witness :
    ((openHandler ⟨[sampleM], sampleReg, 0⟩).2.count (HCall.refetchForced 0)) = 1 :=
  c7_open_close_amended.2.2.1 ⟨[sampleM], sampleReg, 0⟩ 0 (by decide)

theorem mem_osetAdd (l : List String) (m s : String) :
    s ∈ osetAdd l m ↔ s ∈ l ∨ s = m := by
  unfold osetAdd
  by_cases hc : m ∈ l
  · rw [if_pos (by simpa using hc)]
    constructor
    · exact Or.inl
    · rintro (h | rfl)
      · exact h
      · exact hc
  · rw [if_neg (by simpa using hc)]
    simp

theorem nodup_osetAdd (l : List String) (m : String) (h : l.Nodup) :
    (osetAdd l m).Nodup := by
  unfold osetAdd
  by_cases hc : m ∈ l
  · simp [hc, h]
  · simp [hc, h, List.nodup_append]

theorem mem_foldl_osetAdd (msg : List String) (l : List String) (s : String) :
    s ∈ msg.foldl osetAdd l ↔ s ∈ l ∨ s ∈ msg := by
  induction msg generalizing l with
  | nil => simp
  | cons m ms ih =>
    simp only [List.foldl_cons, ih, mem_osetAdd, List.mem_cons]
    tauto

theorem nodup_foldl_osetAdd (msg : List String) (l : List String) (h : l.Nodup) :
    (msg.foldl osetAdd l).Nodup := by
  induction msg generalizing l with
  | nil => exact h
  | cons m ms ih => exact ih _ (nodup_osetAdd l m h)

theorem pending_absorb_mem (msgs : List (List String)) (c : Coalescer) (s : String) :
    s ∈ (msgs.foldl absorbMsg c).pending ↔ s ∈ c.pending ∨ ∃ m ∈ msgs, s ∈ m := by
  induction msgs generalizing c with
  | nil => simp
  | cons m ms ih =>
    simp only [List.foldl_cons, ih, absorbMsg, mem_foldl_osetAdd, List.mem_cons]
    constructor
    · rintro ((h | h) | ⟨x, hx, hs⟩)
      · exact Or.inl h
      · exact Or.inr ⟨m, Or.inl rfl, h⟩
      · exact Or.inr ⟨x, Or.inr hx, hs⟩
    · rintro (h | ⟨x, (rfl | hx), hs⟩)
      · exact Or.inl (Or.inl h)
      · exact Or.inl (Or.inr hs)
      · exact Or.inr ⟨x, hx, hs⟩

theorem pending_absorb_nodup (msgs : List (List String)) (c : Coalescer)
    (h : c.pending.Nodup) : (msgs.foldl absorbMsg c).pending.Nodup := by
  induction msgs generalizing c with
  | nil => exact h
  | cons m ms ih => exact ih _ (nodup_foldl_osetAdd m c.pending h)

theorem timer_absorb (msgs : List (List String)) (c : Coalescer) (h : c.timer = true) :
    (msgs.foldl absorbMsg c).timer = true := by
  induction msgs generalizing c with
  | nil => exact h
  | cons m ms ih => exact ih _ rfl

theorem worldIssue_registry_trips (w : World) (iid : Nat) (o : QOp) :
    (worldIssue w iid o).registry = w.registry ∧ (worldIssue w iid o).trips = w.trips := by
  unfold worldIssue
  cases w.findM iid <;> exact ⟨rfl, rfl⟩

theorem foldl_dispatchInstStep (iids : List Nat) (acc : World × List Nat) :
    (iids.foldl dispatchInstStep acc).1.registry = acc.1.registry ∧
    (iids.foldl dispatchInstStep acc).1.trips = acc.1.trips ∧
    (iids.foldl dispatchInstStep acc).2 = acc.2 ++ iids := by
  induction iids generalizing acc with
  | nil => simp
  | cons i is ih =>
    simp only [List.foldl_cons]
    obtain ⟨r1, r2, r3⟩ := ih (dispatchInstStep acc i)
    refine ⟨?_, ?_, ?_⟩
    · rw [r1]
      exact (worldIssue_registry_trips acc.1 i (.refetch false)).1
    · rw [r2]
      exact (worldIssue_registry_trips acc.1 i (.refetch false)).2
    · rw [r3]
      simp [dispatchInstStep]

theorem foldl_dispatchSidStep (sids : List String) (acc : World × List Nat) :
    (sids.foldl dispatchSidStep acc).1.registry = acc.1.registry ∧
    (sids.foldl dispatchSidStep acc).1.trips = acc.1.trips ∧
    (sids.foldl dispatchSidStep acc).2 =
      acc.2 ++ sids.flatMap (fun sid => (regLookup acc.1.registry sid).getD []) := by
  induction sids generalizing acc with
  | nil => simp
  | cons s ss ih =>
    simp only [List.foldl_cons]
    obtain ⟨r1, r2, r3⟩ := ih (dispatchSidStep acc s)
    have hstep : (dispatchSidStep acc s).1.registry = acc.1.registry ∧
        (dispatchSidStep acc s).1.trips = acc.1.trips ∧
        (dispatchSidStep acc s).2 = acc.2 ++ (regLookup acc.1.registry s).getD [] := by
      unfold dispatchSidStep
      cases h : regLookup acc.1.registry s with
      | none => simp
      | some iids =>
        obtain ⟨q1, q2, q3⟩ := foldl_dispatchInstStep iids acc
        exact ⟨q1, q2, by simp [q3]⟩
    refine ⟨by rw [r1, hstep.1], by rw [r2, hstep.2.1], ?_⟩
    rw [r3, hstep.2.2, hstep.1]
    simp [List.flatMap_cons]

theorem dispatch_unknown_noop (sids : List String) (acc : World × List Nat)
    (h : ∀ sid ∈ sids, regLookup acc.1.registry sid = none) :
    sids.foldl dispatchSidStep acc = acc := by
  induction sids with
  | nil => rfl
  | cons s ss ih =>
    simp only [List.foldl_cons]
    have hs : dispatchSidStep acc s = acc := by
      unfold dispatchSidStep
      rw [h s (List.mem_cons_self _ _)]
    rw [hs]
    exact ih (fun sid hm => h sid (List.mem_cons_of_mem _ hm))

/-- Claim C8: raw invalidation messages absorbed within one throttle window
are merged into a single deduplicated batch with the timer running; when the
timer fires the batch is dispatched once, issuing a non-forced refetch call
on exactly the instances registered under each sid of the batch in order; a
sid without registered instances contributes no call and no error, and a
batch of only such sids leaves the world untouched; after the dispatch the
pending batch is empty with no running timer; the default of the throttle
option is 250. -/
theorem c8_notification_coalescing :
    (∀ (msgs : List (List String)) (s : String),
      (msgs.foldl absorbMsg ⟨[], false⟩).pending.Nodup ∧
      (s ∈ (msgs.foldl absorbMsg ⟨[], false⟩).pending ↔ ∃ m ∈ msgs, s ∈ m) ∧
      (msgs ≠ [] → (msgs.foldl absorbMsg ⟨[], false⟩).timer = true)) ∧
    (∀ (w : World) (sids : List String),
      (dispatchBatch w sids).2 =
        sids.flatMap (fun sid => (regLookup w.registry sid).getD []) ∧
      (dispatchBatch w sids).1.registry = w.registry ∧
      (dispatchBatch w sids).1.trips = w.trips) ∧
    (∀ (w : World) (sids : List String),
      (∀ sid ∈ sids, regLookup w.registry sid = none) →
      (dispatchBatch w sids).2 = [] ∧ (dispatchBatch w sids).1 = w) ∧
    (∀ (w : World) (c : Coalescer),
      (fireTimer w c).2.1 = ⟨[], false⟩ ∧
      (fireTimer w c).2.2 = (dispatchBatch w c.pending).2) ∧
    throttleDefault = 250 := by
  refine ⟨?_, ?_, ?_, fun w c => ⟨rfl, rfl⟩, rfl⟩
  · intro msgs s
    refine ⟨pending_absorb_nodup msgs _ List.nodup_nil, ?_, ?_⟩
    · rw [pending_absorb_mem]
      simp
    · intro hne
      cases msgs with
      | nil => exact absurd rfl hne
      | cons m ms => exact timer_absorb ms _ rfl
  · intro w sids
    obtain ⟨r1, r2, r3⟩ := foldl_dispatchSidStep sids (w, [])
    exact ⟨by simpa using r3, r1, r2⟩
  · intro w sids h
    rw [show dispatchBatch w sids = sids.foldl dispatchSidStep (w, []) from rfl,
      dispatch_unknown_noop sids (w, []) h]
    exact ⟨rfl, rfl⟩

/-- Witness: the coalescing theorem at a batch whose sid has no registered
instances, yielding zero refetch calls and an unchanged world. -/
theorem c8_notification_coalescing_witness :
    (dispatchBatch ⟨[sampleM], [], 0⟩ ["zz"]).2 = [] ∧
    (dispatchBatch ⟨[sampleM], [], 0⟩ ["zz"]).1 = ⟨[sampleM], [], 0⟩ :=
  c8_notification_coalescing.2.2.1 ⟨[sampleM], [], 0⟩ ["zz"] (by decide)

theorem settleGo_skipped (eng : Engine) :
    ∀ (q : List QOp) (s : SubInst) (r : Registry) (k : Nat),
      settleGo eng q s true r k = (s, true, r, k, q.map fun _ => Outcome.skipped) := by
  intro q
  induction q with
  | nil => intro s r k; rfl
  | cons o os ih => intro s r k; simp [settleGo, ih]

theorem issueAll_directive (m : Machine) (ops : List QOp)
    (hd : ∀ o ∈ ops, o = QOp.pause ∨ o = QOp.resume ∨ o = QOp.unsubscribe) :
    issueAll m ops = { m with queue := m.queue ++ ops } := by
  induction ops generalizing m with
  | nil => simp [issueAll]
  | cons o os ih =>
    have hstep : issue m o = { m with queue := m.queue ++ [o] } := by
      rcases hd o (List.mem_cons_self _ _) with h | h | h <;> subst h <;> rfl
    show issueAll (issue m o) os = _
    rw [ih (issue m o) (fun x hx => hd x (List.mem_cons_of_mem _ hx)), hstep]
    simp

theorem runOneAtATime_settleGo (eng : Engine) (ops : List QOp) :
    ∀ (s : SubInst) (f : Bool) (reg : Registry) (n : Nat),
      (∀ o ∈ ops, o = QOp.pause ∨ o = QOp.resume ∨ o = QOp.unsubscribe) →
      runOneAtATime eng ⟨s, [], f⟩ reg n ops =
        (⟨(settleGo eng ops s f reg n).1, [], (settleGo eng ops s f reg n).2.1⟩,
         (settleGo eng ops s f reg n).2.2.1,
         (settleGo eng ops s f reg n).2.2.2.1,
         (settleGo eng ops s f reg n).2.2.2.2) := by
  induction ops with
  | nil => intro s f reg n _; rfl
  | cons o os ih =>
    intro s f reg n hd
    have hstep : issue ⟨s, [], f⟩ o = ⟨s, [o], f⟩ := by
      rcases hd o (List.mem_cons_self _ _) with h | h | h <;> subst h <;> rfl
    have hds : ∀ x ∈ os, x = QOp.pause ∨ x = QOp.resume ∨ x = QOp.unsubscribe :=
      fun x hx => hd x (List.mem_cons_of_mem _ hx)
    simp only [runOneAtATime]
    rw [hstep]
    cases f with
    | true =>
      simp only [settle, settleGo_skipped eng]
      rw [ih s true reg n hds]
      simp [settleGo_skipped eng]
    | false =>
      simp only [settle, settleGo, Bool.false_eq_true, if_false]
      dsimp only
      rw [ih ((runOp eng o s reg n).1)
        (decide ((runOp eng o s reg n).2.2.2 = Outcome.rejected))
        ((runOp eng o s reg n).2.1) ((runOp eng o s reg n).2.2.1) hds]
      simp

/-- Claim C1 amended: pause, resume and unsubscribe operations issued back to
back on one Subscription settle in strict FIFO issue order, and the state,
registry, round trips and per-operation outcomes after all settle are
identical to issuing and awaiting the operations one at a time in issue
order (the chain is deterministic).  An operation that fails with the
InvalidState error, however, rejects the chain itself, not only its own
promise: every link enqueued after a rejected one settles as skipped, its
callback never executing and the instance state untouched, until a reset
replaces the chain. -/
theorem c1_fifo_chain (eng : Engine) (m : Machine) (reg : Registry) (n : Nat)
    (ops : List QOp)
    (hd : ∀ o ∈ ops, o = QOp.pause ∨ o = QOp.resume ∨ o = QOp.unsubscribe)
    (hq : m.queue = []) :
    settle eng (issueAll m ops) reg n = runOneAtATime eng m reg n ops ∧
    (∀ (q : List QOp) (s : SubInst) (r : Registry) (k : Nat),
      settleGo eng q s true r k = (s, true, r, k, q.map fun _ => Outcome.skipped)) := by
  constructor
  · obtain ⟨inst, q, f⟩ := m
    dsimp only at hq
    subst hq
    rw [issueAll_directive _ _ hd, runOneAtATime_settleGo eng ops inst f reg n hd]
    simp [settle]
  · exact settleGo_skipped eng

/-- Witness: the amended chain theorem at the sample instance with one pause,
back-to-back settlement agreeing with one-at-a-time settlement. -/
theorem c1_fifo_chain_witness :
    settle engAllOk (issueAll sampleM [QOp.pause]) sampleReg 0 =
      runOneAtATime engAllOk sampleM sampleReg 0 [QOp.pause] :=
  (c1_fifo_chain engAllOk sampleM sampleReg 0 [QOp.pause] (by decide) rfl).1

end GraphqlIoClient
